import Mathlib

/-!
Shallow embedding of the TinderV2 matching/messaging core
(backend models `User`, `Match`, `Message` and the route handlers that
drive them).  Mongo documents become records, collections become lists,
`Date` values become `Int` milliseconds, and each route handler or model
method becomes a pure function on a `DB` state, returning `Except` for
the error paths.  Source locations are cited next to each definition.
-/

set_option maxHeartbeats 1000000

/-- Swipe action, `userSchema.swipedUsers.action` enum (part_006 lines 108-112). -/
inductive SwipeAction where
  | like
  | pass
deriving DecidableEq, Repr

/-- Gender enum (part_006 lines 30-34). -/
inductive Gender where
  | male
  | female
  | other
deriving DecidableEq, Repr

/-- Interest preference enum (part_006 lines 35-39). -/
inductive Interest where
  | male
  | female
  | both
deriving DecidableEq, Repr

/-- Message type enum (part_005 lines 504-508). -/
inductive MessageType where
  | text
  | image
  | gif
  | emoji
deriving DecidableEq, Repr

/-- One entry of a user's swipe history (part_006 lines 103-117). -/
structure SwipeEntry where
  userId : Nat
  action : SwipeAction
  swipedAt : Int
deriving DecidableEq, Repr

/-- User document: the fields of `userSchema` (part_006 lines 4-142) that the
matching core reads.  `preferences.ageRange.min/max` and
`preferences.maxDistance` are flattened to `ageRangeMin`, `ageRangeMax` and
`maxDistance`; `location.coordinates` becomes the pair `coordinates`. -/
structure User where
  id : Nat
  age : Nat
  gender : Gender
  interestedIn : Interest
  coordinates : Int × Int
  ageRangeMin : Nat
  ageRangeMax : Nat
  maxDistance : Nat
  swipedUsers : List SwipeEntry
  matchIds : List Nat
  isActive : Bool
  lastActive : Int
deriving DecidableEq, Repr

/-- Match document, `matchSchema` (Match.js lines 3-39). -/
structure Match where
  id : Nat
  users : List Nat
  messages : List Nat
  lastMessage : Option Nat
  lastActivity : Int
  isActive : Bool
  unmatchedBy : Option Nat
  unmatchedAt : Option Int
deriving DecidableEq, Repr

/-- Message document, `messageSchema` (part_005 lines 481-552).
`match` (a Lean keyword) is rendered `matchId`; `createdAt` is the
`timestamps: true` creation time. -/
structure Message where
  id : Nat
  matchId : Nat
  sender : Nat
  recipient : Nat
  content : Option String
  messageType : MessageType
  imageUrl : Option String
  gifUrl : Option String
  isRead : Bool
  readAt : Option Int
  isDelivered : Bool
  deliveredAt : Option Int
  isActive : Bool
  editedAt : Option Int
  replyTo : Option Nat
  createdAt : Int
deriving DecidableEq, Repr

/-- The three MongoDB collections plus a fresh-id counter standing in for
ObjectId generation. -/
structure DB where
  users : List User
  matchDocs : List Match
  messages : List Message
  nextId : Nat
deriving DecidableEq, Repr

/-- `User.findById` (used at part_006 line 239). -/
def findUser (db : DB) (id : Nat) : Option User :=
  db.users.find? (fun u => u.id == id)

/-- `Match.findById` (used at part_005 line 581). -/
def findMatch (db : DB) (id : Nat) : Option Match :=
  db.matchDocs.find? (fun m => m.id == id)

/-- Persisting an already-existing user document (`this.save()`); the
password/lastActive pre-save hooks (part_006 lines 156-174) touch fields
outside this model and are elided. -/
def updateUser (db : DB) (u : User) : DB :=
  { db with users := db.users.map (fun x => if x.id == u.id then u else x) }

/-- The `matchSchema.pre save` hook: exactly 2 users per match
(Match.js lines 48-53).  It checks only the length, not distinctness. -/
def matchPreSave (m : Match) : Except String Unit :=
  if m.users.length ≠ 2 then Except.error ("A match must have exactly 2 users")
  else Except.ok ()

/-- `new Match(...).save()`: run the pre-save hook, then insert. -/
def insertMatch (db : DB) (m : Match) : Except String DB :=
  match matchPreSave m with
  | Except.error e => Except.error e
  | Except.ok _ => Except.ok { db with matchDocs := db.matchDocs ++ [m] }

/-- `match.save()` on an existing match document: run the pre-save hook,
then overwrite the stored document with the same id. -/
def saveMatch (db : DB) (m : Match) : Except String DB :=
  match matchPreSave m with
  | Except.error e => Except.error e
  | Except.ok _ =>
      Except.ok { db with matchDocs := db.matchDocs.map (fun x => if x.id == m.id then m else x) }

/-- Does `u`'s swipe history contain a like pointing back at `actorId`?
(the `targetUserLikedBack` lookup, part_006 lines 240-242). -/
def likedBack (u : User) (actorId : Nat) : Bool :=
  (u.swipedUsers.find? (fun s => s.userId == actorId && s.action == SwipeAction.like)).isSome

/-- Result object of `addSwipe` (part_006 lines 259 and 263).  The JS field
is named `match`, a Lean keyword, so it is rendered `matched` here. -/
structure SwipeResult where
  matched : Bool
  matchId : Option Nat
deriving DecidableEq, Repr

/-- `userSchema.methods.addSwipe` (part_006 lines 220-264): reject a
duplicate swipe on the same target, append the swipe entry and persist,
then (for a like) load the target and, if the target already liked back,
create a Match over exactly these two users, push its id onto both users
match lists and persist both documents. -/
def addSwipe (db : DB) (now : Int) (actorId targetUserId : Nat) (action : SwipeAction) :
    Except String (DB × SwipeResult) :=
  match findUser db actorId with
  | none => Except.error ("Actor not found")
  | some actor =>
    if (actor.swipedUsers.find? (fun s => s.userId == targetUserId)).isSome then
      Except.error ("Already swiped on this user")
    else
      let actor1 : User :=
        { actor with swipedUsers := actor.swipedUsers ++ [⟨targetUserId, action, now⟩] }
      let db1 := updateUser db actor1
      match action with
      | SwipeAction.pass => Except.ok (db1, ⟨false, none⟩)
      | SwipeAction.like =>
        match findUser db1 targetUserId with
        | none => Except.error ("Cannot read properties of null")
        | some target =>
          if likedBack target actorId then
            let m : Match :=
              { id := db1.nextId, users := [actorId, targetUserId], messages := [],
                lastMessage := none, lastActivity := now, isActive := true,
                unmatchedBy := none, unmatchedAt := none }
            match insertMatch { db1 with nextId := db1.nextId + 1 } m with
            | Except.error e => Except.error e
            | Except.ok db2 =>
              let actor2 : User := { actor1 with matchIds := actor1.matchIds ++ [m.id] }
              let target2 : User := { target with matchIds := target.matchIds ++ [m.id] }
              let db3 := updateUser db2 actor2
              let db4 := updateUser db3 target2
              Except.ok (db4, ⟨true, some m.id⟩)
          else
            Except.ok (db1, ⟨false, none⟩)

/-- `userSchema.methods.getPotentialMatches` (part_006 lines 182-217).
`dist` abstracts the geospatial engine behind the `2dsphere` `$near`
query: it returns the distance in meters between two coordinate pairs.
The explicit `.sort(lastActive: -1)` overrides the `$near` ordering, and
`limit` caps the sorted result. -/
def getPotentialMatches (dist : Int × Int → Int × Int → Nat) (db : DB) (actor : User)
    (lim : Nat) : List User :=
  let swipedUserIds := (actor.swipedUsers.map (fun s => s.userId)) ++ [actor.id]
  let query : User → Bool := fun u =>
    !(swipedUserIds.contains u.id) && (u.isActive &&
      ((decide (actor.ageRangeMin ≤ u.age) && decide (u.age ≤ actor.ageRangeMax)) &&
        ((match actor.interestedIn with
          | Interest.both => true
          | Interest.male => u.gender == Gender.male
          | Interest.female => u.gender == Gender.female) &&
         (if actor.coordinates.1 ≠ 0 ∨ actor.coordinates.2 ≠ 0 then
            decide (dist actor.coordinates u.coordinates ≤ actor.maxDistance * 1000)
          else true))))
  ((db.users.filter query).mergeSort
    (fun a b => decide (b.lastActive ≤ a.lastActive))).take lim

/-- Model of the JS `String.prototype.trim` used by the routes and
validators: strip leading and trailing whitespace.  (Core `String.trim`
is not kernel-reducible, so the char-list form is used.) -/
def jsTrim (s : String) : String :=
  String.mk (((s.data.dropWhile Char.isWhitespace).reverse.dropWhile
    Char.isWhitespace).reverse)

/-- Mongoose schema validation for a message save (part_005 lines 497-520):
`content` required (and non-empty) exactly when `messageType` is text, with
maxlength 1000; `imageUrl` required for image; `gifUrl` required for gif. -/
def messageValidate (m : Message) : Except String Unit :=
  if m.messageType = MessageType.text ∧ (m.content = none ∨ m.content = some ("")) then
    Except.error ("Path content is required")
  else if (m.content.getD ("")).length > 1000 then
    Except.error ("Message cannot be more than 1000 characters")
  else if m.messageType = MessageType.image ∧ m.imageUrl = none then
    Except.error ("Path imageUrl is required")
  else if m.messageType = MessageType.gif ∧ m.gifUrl = none then
    Except.error ("Path gifUrl is required")
  else Except.ok ()

/-- Validation plus the sender-differs-from-recipient pre-save hook
(part_005 lines 561-566). -/
def messagePreSaveChecks (m : Message) : Except String Unit :=
  match messageValidate m with
  | Except.error e => Except.error e
  | Except.ok _ =>
    if m.sender == m.recipient then
      Except.error ("Sender and recipient cannot be the same")
    else Except.ok ()

/-- `matchSchema.methods.addMessage` (Match.js lines 96-101), minus its
own `save()` call, which the caller performs via `saveMatch`. -/
def matchAddMessage (m : Match) (messageId : Nat) (now : Int) : Match :=
  { m with messages := m.messages ++ [messageId],
           lastMessage := some messageId, lastActivity := now }

/-- The `messageSchema.post save` hook (part_005 lines 578-588): after every
document save of a Message it looks up the owning match and calls
`addMessage` on it; errors there are caught and swallowed. -/
def messagePostSave (db : DB) (msg : Message) (now : Int) : DB :=
  match findMatch db msg.matchId with
  | none => db
  | some m =>
    match saveMatch db (matchAddMessage m msg.id now) with
    | Except.ok db2 => db2
    | Except.error _ => db

/-- `new Message(...).save()`: validation and pre-save hooks, the
`isNew` delivery hook (part_005 lines 569-575) setting
`isDelivered=true, deliveredAt=now`, insertion, then the post-save hook. -/
def saveNewMessage (db : DB) (now : Int) (msg : Message) : Except String (DB × Message) :=
  match messagePreSaveChecks msg with
  | Except.error e => Except.error e
  | Except.ok _ =>
    let msg1 : Message := { msg with isDelivered := true, deliveredAt := some now }
    let db1 : DB := { db with messages := db.messages ++ [msg1] }
    Except.ok (messagePostSave db1 msg1 now, msg1)

/-- `message.save()` on an existing message document (not new, so the
delivery hook does not fire): checks, overwrite by id, post-save hook. -/
def saveMessage (db : DB) (now : Int) (msg : Message) : Except String (DB × Message) :=
  match messagePreSaveChecks msg with
  | Except.error e => Except.error e
  | Except.ok _ =>
    let db1 : DB := { db with messages := db.messages.map (fun x => if x.id == msg.id then msg else x) }
    Except.ok (messagePostSave db1 msg now, msg)

/-- `POST /api/messages` handler (messageRoutes.js lines 15-171): the
express-validator length bound on `content`, match lookup restricted to
participants of an active match, recipient derivation, type-conditional
payload checks, reply-to check, then construction and save of the message. -/
def sendMessage (db : DB) (now : Int) (senderId matchId : Nat)
    (content : Option String) (messageType : MessageType)
    (imageUrl gifUrl : Option String) (replyTo : Option Nat) :
    Except String (DB × Message) :=
  if (match content with
      | some c => (jsTrim c).length < 1 || (jsTrim c).length > 1000
      | none => false) then
    Except.error ("Validation errors")
  else
    match db.matchDocs.find? (fun m => m.id == matchId &&
        (m.users.contains senderId && m.isActive)) with
    | none => Except.error ("Match not found or inactive")
    | some mtch =>
      match mtch.users.find? (fun u => u != senderId) with
      | none => Except.error ("Cannot read properties of undefined")
      | some recipientId =>
        if messageType = MessageType.text ∧
            (content = none ∨ jsTrim (content.getD ("")) = ("")) then
          Except.error ("Text messages require content")
        else if messageType = MessageType.image ∧ imageUrl = none then
          Except.error ("Image messages require imageUrl")
        else if messageType = MessageType.gif ∧ gifUrl = none then
          Except.error ("GIF messages require gifUrl")
        else if ((match replyTo with
                 | some r => !(db.messages.find? (fun x : Message => x.id == r &&
                     (x.matchId == matchId && x.isActive))).isSome
                 | none => false) : Bool) then
          Except.error ("Reply message not found")
        else
          let msg : Message :=
            { id := db.nextId, matchId := matchId, sender := senderId,
              recipient := recipientId, content := content.map (fun c : String => jsTrim c),
              messageType := messageType, imageUrl := imageUrl, gifUrl := gifUrl,
              isRead := false, readAt := none, isDelivered := false,
              deliveredAt := none, isActive := true, editedAt := none,
              replyTo := replyTo, createdAt := now }
          saveNewMessage { db with nextId := db.nextId + 1 } now msg

/-- `messageSchema.statics.getMatchMessages` (part_005 lines 591-605):
active messages of the match, newest first, page/limit windowed. -/
def getMatchMessages (db : DB) (matchId : Nat) (page lim : Nat) : List Message :=
  let skip := (page - 1) * lim
  ((((db.messages.filter (fun m => m.matchId == matchId && m.isActive)).mergeSort
      (fun a b => decide (b.createdAt ≤ a.createdAt))).drop skip).take lim)

/-- `messageSchema.statics.markAsRead` (part_005 lines 608-625): an
`updateMany` (no save hooks) setting `isRead/readAt` on every active unread
message of the match addressed to `userId`; returns the modified count. -/
def markAsRead (db : DB) (now : Int) (matchId userId : Nat) : DB × Nat :=
  let cond : Message → Bool := fun m =>
    m.matchId == matchId && (m.recipient == userId && (!m.isRead && m.isActive))
  ({ db with messages := db.messages.map (fun m =>
      if cond m then { m with isRead := true, readAt := some now } else m) },
   (db.messages.filter cond).length)

/-- `messageSchema.statics.getUnreadCount` (part_005 lines 628-634). -/
def messageGetUnreadCount (db : DB) (userId : Nat) : Nat :=
  (db.messages.filter (fun m => m.recipient == userId && (!m.isRead && m.isActive))).length

/-- `matchSchema.methods.getUnreadCount` (Match.js lines 152-160): note it
counts by `sender ≠ userId`, not by recipient. -/
def matchGetUnreadCount (db : DB) (matchId userId : Nat) : Nat :=
  (db.messages.filter (fun m => m.matchId == matchId &&
    (m.sender != userId && (!m.isRead && m.isActive)))).length

/-- `GET /api/matches/:matchId/messages` handler (part_002 lines 152-217):
participant-of-active-match guard, fetch a page, then `markAsRead` as a
side effect, and return the page reversed to chronological order. -/
def getMatchMessagesHandler (db : DB) (now : Int) (callerId matchId : Nat)
    (page lim : Nat) : Except String (DB × List Message) :=
  match db.matchDocs.find? (fun m => m.id == matchId &&
      (m.users.contains callerId && m.isActive)) with
  | none => Except.error ("Match not found")
  | some _ =>
    let msgs := getMatchMessages db matchId page lim
    Except.ok ((markAsRead db now matchId callerId).1, msgs.reverse)

/-- `PUT /api/messages/:messageId/read` handler (messageRoutes.js lines
196-240): a `findOneAndUpdate` filtered only on id, recipient and
`isActive` — there is no `isRead: false` condition — setting
`isRead=true, readAt=now`.  `findOneAndUpdate` bypasses save middleware. -/
def markMessageReadHandler (db : DB) (now : Int) (readerId messageId : Nat) :
    Except String (DB × Message) :=
  match db.messages.find? (fun m => m.id == messageId &&
      (m.recipient == readerId && m.isActive)) with
  | none => Except.error ("Message not found")
  | some m =>
    let m1 : Message := { m with isRead := true, readAt := some now }
    Except.ok ({ db with messages := db.messages.map (fun x =>
        if x.id == messageId then m1 else x) }, m1)

/-- `PUT /api/messages/match/:matchId/read-all` handler (messageRoutes.js
lines 245-291). -/
def markAllReadHandler (db : DB) (now : Int) (callerId matchId : Nat) :
    Except String (DB × Nat) :=
  match db.matchDocs.find? (fun m => m.id == matchId &&
      (m.users.contains callerId && m.isActive)) with
  | none => Except.error ("Match not found")
  | some _ => Except.ok (markAsRead db now matchId callerId)

/-- `messageSchema.statics.deleteMessage` (part_005 lines 637-653): find by
id restricted to the requesting sender and active, flip `isActive` off and
save (which re-triggers the post-save hook). -/
def deleteMessage (db : DB) (now : Int) (messageId userId : Nat) :
    Except String (DB × Message) :=
  match db.messages.find? (fun m => m.id == messageId &&
      (m.sender == userId && m.isActive)) with
  | none => Except.error ("Message not found or unauthorized")
  | some m => saveMessage db now { m with isActive := false }

/-- `messageSchema.statics.editMessage` (part_005 lines 656-679): find by id
restricted to the sender, active and text type; reject when `createdAt` is
older than 15 minutes; mutate content, set `editedAt`, save (post-save hook
re-fires). -/
def editMessage (db : DB) (now : Int) (messageId userId : Nat) (newContent : String) :
    Except String (DB × Message) :=
  match db.messages.find? (fun m => m.id == messageId &&
      (m.sender == userId && (m.isActive && m.messageType == MessageType.text))) with
  | none => Except.error ("Message not found or unauthorized")
  | some m =>
    if m.createdAt < now - 15 * 60 * 1000 then
      Except.error ("Message is too old to edit")
    else
      saveMessage db now { m with content := some newContent, editedAt := some now }

/-- `PUT /api/messages/:messageId/edit` handler (messageRoutes.js lines
333-387): express-validator trims the content and bounds its length to
1..1000, then calls `editMessage` with the trimmed content. -/
def editMessageHandler (db : DB) (now : Int) (editorId messageId : Nat)
    (content : String) : Except String (DB × Message) :=
  if (jsTrim content).length < 1 || (jsTrim content).length > 1000 then
    Except.error ("Validation errors")
  else editMessage db now messageId editorId (jsTrim content)

/-- `matchSchema.methods.unmatch` (Match.js lines 104-123): flip the match
inactive recording who/when, save, pull the match id from every member
user's match list, and mark every message of the match inactive (both via
`updateMany`, which runs no save hooks). -/
def matchUnmatch (db : DB) (m : Match) (userId : Nat) (now : Int) : Except String DB :=
  let m1 : Match := { m with isActive := false, unmatchedBy := some userId,
                             unmatchedAt := some now }
  match saveMatch db m1 with
  | Except.error e => Except.error e
  | Except.ok db1 =>
    let db2 : DB := { db1 with users := db1.users.map (fun u =>
        if m1.users.contains u.id then
          { u with matchIds := u.matchIds.filter (fun x => x != m1.id) }
        else u) }
    Except.ok { db2 with messages := db2.messages.map (fun msg =>
        if msg.matchId == m1.id then { msg with isActive := false } else msg) }

/-- `DELETE /api/matches/:matchId` handler (part_002 lines 106-150):
participant-of-active-match guard, then `match.unmatch(req.user._id)`. -/
def unmatchHandler (db : DB) (now : Int) (callerId matchId : Nat) : Except String DB :=
  match db.matchDocs.find? (fun m => m.id == matchId &&
      (m.users.contains callerId && m.isActive)) with
  | none => Except.error ("Match not found")
  | some m => matchUnmatch db m callerId now

/-- The state-mutating operations reachable through the modelled API,
used to express that an unmatched match can never be reactivated. -/
inductive Op where
  | swipe (now : Int) (actorId targetId : Nat) (action : SwipeAction)
  | send (now : Int) (senderId matchId : Nat) (content : Option String)
      (messageType : MessageType) (imageUrl gifUrl : Option String)
      (replyTo : Option Nat)
  | readOne (now : Int) (readerId messageId : Nat)
  | readAll (now : Int) (callerId matchId : Nat)
  | listMessages (now : Int) (callerId matchId : Nat) (page lim : Nat)
  | delMessage (now : Int) (messageId userId : Nat)
  | editMsg (now : Int) (editorId messageId : Nat) (content : String)
  | unmatchOp (now : Int) (callerId matchId : Nat)

/-- Run one API operation; a rejected request leaves the store unchanged. -/
def applyOp (db : DB) : Op → DB
  | Op.swipe now a t act =>
      match addSwipe db now a t act with
      | Except.ok (db1, _) => db1
      | Except.error _ => db
  | Op.send now s mId c ty iu gu r =>
      match sendMessage db now s mId c ty iu gu r with
      | Except.ok (db1, _) => db1
      | Except.error _ => db
  | Op.readOne now r mId =>
      match markMessageReadHandler db now r mId with
      | Except.ok (db1, _) => db1
      | Except.error _ => db
  | Op.readAll now c mId =>
      match markAllReadHandler db now c mId with
      | Except.ok (db1, _) => db1
      | Except.error _ => db
  | Op.listMessages now c mId p l =>
      match getMatchMessagesHandler db now c mId p l with
      | Except.ok (db1, _) => db1
      | Except.error _ => db
  | Op.delMessage now mId u =>
      match deleteMessage db now mId u with
      | Except.ok (db1, _) => db1
      | Except.error _ => db
  | Op.editMsg now e mId c =>
      match editMessageHandler db now e mId c with
      | Except.ok (db1, _) => db1
      | Except.error _ => db
  | Op.unmatchOp now c mId =>
      match unmatchHandler db now c mId with
      | Except.ok db1 => db1
      | Except.error _ => db

/-- Run a sequence of API operations. -/
def applyOps (db : DB) (ops : List Op) : DB :=
  ops.foldl applyOp db

/-! ## Generic lookup/update lemmas -/

theorem find?_key_map_keyfix {α : Type} (key : α → Nat) (g : α → α)
    (hkey : ∀ x, key (g x) = key x) (j : Nat) (hfix : ∀ x, key x = j → g x = x) :
    ∀ l : List α, (l.map g).find? (fun x => key x == j) = l.find? (fun x => key x == j)
  | [] => rfl
  | a :: t => by
    rw [List.map_cons]
    by_cases h : key a = j
    · have hga : g a = a := hfix a h
      rw [List.find?_cons_of_pos _ (by simp [hga, h]),
          List.find?_cons_of_pos _ (by simp [h]), hga]
    · rw [List.find?_cons_of_neg _ (by simp [hkey, h]),
          List.find?_cons_of_neg _ (by simp [h])]
      exact find?_key_map_keyfix key g hkey j hfix t

theorem find?_key_map_replace {α : Type} (key : α → Nat) (v : α) (j : Nat) (hv : key v = j) :
    ∀ l : List α, (∃ x ∈ l, key x = j) →
      (l.map (fun x => if key x == j then v else x)).find? (fun x => key x == j) = some v
  | [], h => by simp at h
  | a :: t, h => by
    rw [List.map_cons]
    by_cases ha : key a = j
    · rw [if_pos (by simp [ha]), List.find?_cons_of_pos _ (by simp [hv])]
    · have hrest : ∃ x ∈ t, key x = j := by
        rcases h with ⟨x, hx, hxk⟩
        rcases List.mem_cons.mp hx with rfl | hxt
        · exact absurd hxk ha
        · exact ⟨x, hxt, hxk⟩
      rw [if_neg (by simp [ha]), List.find?_cons_of_neg _ (by simp [ha])]
      exact find?_key_map_replace key v j hv t hrest

theorem find?_key_unique {α : Type} (key : α → Nat) (p : α → Bool) (j : Nat) :
    ∀ l : List α, (l.map key).Nodup → ∀ m ∈ l, key m = j →
      l.find? (fun x => key x == j && p x) = if p m then some m else none
  | [], _, m, hm, _ => by simp at hm
  | a :: t, hnd, m, hm, hk => by
    have hnd2 : (∀ x ∈ t, ¬ key x = key a) ∧ (t.map key).Nodup := by simpa using hnd
    rcases List.mem_cons.mp hm with rfl | hmt
    · by_cases hp : p m = true
      · rw [List.find?_cons_of_pos _ (by simp [hk, hp]), if_pos hp]
      · have hpf : p m = false := by simpa using hp
        rw [List.find?_cons_of_neg _ (by simp [hpf]), if_neg (by simp [hpf])]
        apply List.find?_eq_none.mpr
        intro x hx
        have hxj : ¬ key x = j := fun hxj => hnd2.1 x hx (by rw [hxj, hk])
        simp [hxj]
    · have haj : ¬ key a = j := fun haj => hnd2.1 m hmt (by rw [hk, haj])
      rw [List.find?_cons_of_neg _ (by simp [haj])]
      exact find?_key_unique key p j t hnd2.2 m hmt hk

theorem nodup_key_map {α : Type} (key : α → Nat) (g : α → α)
    (hkey : ∀ x, key (g x) = key x) (l : List α) (h : (l.map key).Nodup) :
    ((l.map g).map key).Nodup := by
  rw [List.map_map]
  have he : l.map (key ∘ g) = l.map key := List.map_congr_left (fun a _ => hkey a)
  rw [he]; exact h

/-! ## Lookup/update lemmas for the user collection -/

theorem findUser_id_eq {db : DB} {j : Nat} {u : User} (h : findUser db j = some u) :
    u.id = j := by
  have := List.find?_some h
  simpa using this

theorem findUser_mem {db : DB} {j : Nat} {u : User} (h : findUser db j = some u) :
    u ∈ db.users :=
  List.mem_of_find?_eq_some h

theorem findUser_updateUser_ne (db : DB) (u : User) (j : Nat) (h : u.id ≠ j) :
    findUser (updateUser db u) j = findUser db j := by
  apply find?_key_map_keyfix (fun x : User => x.id)
  · intro x
    by_cases hx : x.id = u.id <;> simp [hx]
  · intro x hx
    rw [if_neg]
    simp [hx]
    exact fun hh => h hh.symm

theorem findUser_updateUser_self (db : DB) (u : User) (j : Nat) (hid : u.id = j)
    (hex : ∃ x ∈ db.users, x.id = j) : findUser (updateUser db u) j = some u := by
  subst hid
  exact find?_key_map_replace (fun x : User => x.id) u u.id rfl db.users hex

theorem exists_id_updateUser (db : DB) (u : User) (j : Nat)
    (h : ∃ x ∈ db.users, x.id = j) : ∃ x ∈ (updateUser db u).users, x.id = j := by
  rcases h with ⟨x, hx, hxk⟩
  by_cases hxu : x.id = u.id
  · refine ⟨u, ?_, by rw [← hxu, hxk]⟩
    simp only [updateUser, List.mem_map]
    exact ⟨x, hx, by simp [hxu]⟩
  · refine ⟨x, ?_, hxk⟩
    simp only [updateUser, List.mem_map]
    exact ⟨x, hx, by simp [hxu]⟩

/-! ## C1: mutual-like swipe creates exactly one match -/

/-- C1: for distinct users A and B (sequential execution), when A records a
swipe on B with action = like and B's swipe history already holds a like
pointing back at A, exactly one new Match referencing exactly these two
users is appended to the match collection, its id is appended to both A's
and B's match-reference lists, and the call reports matched = true with the
match id; in every other case (action = pass, or no reciprocal like) no
match is created and the call reports matched = false. -/
theorem mem_updateUser_of_ne {db : DB} {u x : User} (hx : x ∈ db.users)
    (h : x.id ≠ u.id) : x ∈ (updateUser db u).users := by
  simp only [updateUser, List.mem_map]
  exact ⟨x, hx, by simp [h]⟩

theorem addSwipe_mutual_like_spec
    (db : DB) (now : Int) (A B : Nat) (a b : User) (action : SwipeAction)
    (hA : findUser db A = some a) (hB : findUser db B = some b) (hAB : A ≠ B)
    (hnew : ∀ s ∈ a.swipedUsers, s.userId ≠ B) :
    ∃ db2 r, addSwipe db now A B action = Except.ok (db2, r) ∧
      ((action = SwipeAction.like ∧ likedBack b A = true) →
        r = ⟨true, some db.nextId⟩ ∧
        db2.matchDocs = db.matchDocs ++
          [⟨db.nextId, [A, B], [], none, now, true, none, none⟩] ∧
        (∃ a2, findUser db2 A = some a2 ∧ a2.matchIds = a.matchIds ++ [db.nextId] ∧
          a2.swipedUsers = a.swipedUsers ++ [⟨B, action, now⟩]) ∧
        (∃ b2, findUser db2 B = some b2 ∧ b2.matchIds = b.matchIds ++ [db.nextId] ∧
          b2.swipedUsers = b.swipedUsers)) ∧
      ((action = SwipeAction.pass ∨ likedBack b A = false) →
        r = ⟨false, none⟩ ∧ db2.matchDocs = db.matchDocs ∧
        findUser db2 B = some b) := by
  have haid : a.id = A := findUser_id_eq hA
  have hbid : b.id = B := findUser_id_eq hB
  have hamem : a ∈ db.users := findUser_mem hA
  have hbmem : b ∈ db.users := findUser_mem hB
  have hdup : (a.swipedUsers.find? (fun s => s.userId == B)).isSome = false := by
    rw [List.find?_eq_none.mpr (fun s hs => by simpa using hnew s hs)]
    rfl
  cases action with
  | pass =>
    have heq : addSwipe db now A B SwipeAction.pass = Except.ok
        (updateUser db { a with swipedUsers :=
          a.swipedUsers ++ [⟨B, SwipeAction.pass, now⟩] }, ⟨false, none⟩) := by
      simp only [addSwipe, hA, hdup, Bool.false_eq_true, if_false]
    refine ⟨_, _, heq, ?_, ?_⟩
    · rintro ⟨h, -⟩
      exact absurd h (by decide)
    · intro _
      refine ⟨rfl, rfl, ?_⟩
      exact (findUser_updateUser_ne db
        { a with swipedUsers := a.swipedUsers ++ [⟨B, SwipeAction.pass, now⟩] } B
        (show a.id ≠ B by rw [haid]; exact hAB)).trans hB
  | like =>
    have hfind1 : findUser (updateUser db { a with swipedUsers :=
        a.swipedUsers ++ [⟨B, SwipeAction.like, now⟩] }) B = some b :=
      (findUser_updateUser_ne db
        { a with swipedUsers := a.swipedUsers ++ [⟨B, SwipeAction.like, now⟩] } B
        (show a.id ≠ B by rw [haid]; exact hAB)).trans hB
    by_cases hl : likedBack b A = true
    · have heq : addSwipe db now A B SwipeAction.like = Except.ok
          (updateUser (updateUser
            { updateUser db { a with swipedUsers :=
                a.swipedUsers ++ [⟨B, SwipeAction.like, now⟩] } with
              nextId := db.nextId + 1,
              matchDocs := db.matchDocs ++
                [⟨db.nextId, [A, B], [], none, now, true, none, none⟩] }
            { a with swipedUsers := a.swipedUsers ++ [⟨B, SwipeAction.like, now⟩],
                     matchIds := a.matchIds ++ [db.nextId] })
            { b with matchIds := b.matchIds ++ [db.nextId] },
           ⟨true, some db.nextId⟩) := by
        simp only [addSwipe, hA, hdup, Bool.false_eq_true, if_false, hfind1, hl,
          if_true, insertMatch, matchPreSave]
        simp [updateUser]
      refine ⟨_, _, heq, ?_, ?_⟩
      · intro _
        refine ⟨rfl, rfl, ?_, ?_⟩
        · exact ⟨_, (findUser_updateUser_ne _
              { b with matchIds := b.matchIds ++ [db.nextId] } A
              (show b.id ≠ A from fun h => hAB (h.symm.trans hbid))).trans
              (findUser_updateUser_self _
                { a with swipedUsers := a.swipedUsers ++ [⟨B, SwipeAction.like, now⟩],
                         matchIds := a.matchIds ++ [db.nextId] } A
                (show a.id = A from haid)
                (exists_id_updateUser db _ A ⟨a, hamem, haid⟩)), rfl, rfl⟩
        · exact ⟨_, findUser_updateUser_self _
              { b with matchIds := b.matchIds ++ [db.nextId] } B
              (show b.id = B from hbid)
              (exists_id_updateUser _ _ B
                ⟨b, mem_updateUser_of_ne hbmem
                  (show b.id ≠ a.id from fun h =>
                    hAB (((hbid.symm.trans h).trans haid).symm)), hbid⟩), rfl, rfl⟩
      · rintro (h | h)
        · exact absurd h (by decide)
        · rw [hl] at h
          exact absurd h (by decide)
    · have hlf : likedBack b A = false := by simpa using hl
      have heq : addSwipe db now A B SwipeAction.like = Except.ok
          (updateUser db { a with swipedUsers :=
            a.swipedUsers ++ [⟨B, SwipeAction.like, now⟩] }, ⟨false, none⟩) := by
        simp only [addSwipe, hA, hdup, Bool.false_eq_true, if_false, hfind1, hlf]
      refine ⟨_, _, heq, ?_, ?_⟩
      · rintro ⟨-, h⟩
        rw [hlf] at h
        exact absurd h (by decide)
      · intro _
        refine ⟨rfl, rfl, ?_⟩
        exact hfind1

def uC1a : User := ⟨1, 30, Gender.male, Interest.female, (0, 0), 18, 35, 50, [], [], true, 10⟩

def uC1b : User :=
  ⟨2, 25, Gender.female, Interest.both, (0, 0), 18, 50, 50, [⟨1, SwipeAction.like, 3⟩], [], true, 20⟩

def dbC1 : DB := ⟨[uC1a, uC1b], [], [], 100⟩

/-- Witness for C1 at a concrete store: user 2 already liked user 1, so user
1 liking user 2 creates exactly the one match with id 100. -/
theorem addSwipe_mutual_like_witness :
    (∀ s ∈ uC1a.swipedUsers, s.userId ≠ 2) ∧
    ∃ db2 r, addSwipe dbC1 5 1 2 SwipeAction.like = Except.ok (db2, r) ∧
      r = ⟨true, some 100⟩ ∧
      db2.matchDocs = [⟨100, [1, 2], [], none, 5, true, none, none⟩] := by
  obtain ⟨db2, r, hok, hpos, -⟩ :=
    addSwipe_mutual_like_spec dbC1 5 1 2 uC1a uC1b SwipeAction.like rfl rfl
      (by decide) (by decide)
  obtain ⟨hr, hm, -, -⟩ := hpos ⟨rfl, by decide⟩
  exact ⟨by decide, db2, r, hok, hr, by rw [hm]; rfl⟩

/-! ## C2: duplicate-swipe rejection and unconditional append -/

/-- C2: `addSwipe` fails with the duplicate-swipe error if and only if the
actor's swipe history already holds an entry for that target (whatever the
prior or new action was); rejection produces no new store.  When no prior
entry exists the call succeeds and the persisted actor document holds
exactly the old history plus the one appended entry, for like and pass
alike. -/
theorem addSwipe_duplicate_spec (db : DB) (now : Int) (A B : Nat) (a b : User)
    (action : SwipeAction)
    (hA : findUser db A = some a) (hB : findUser db B = some b) (hAB : A ≠ B) :
    ((∃ s ∈ a.swipedUsers, s.userId = B) →
      addSwipe db now A B action = Except.error ("Already swiped on this user")) ∧
    ((∀ s ∈ a.swipedUsers, s.userId ≠ B) →
      ∃ db2 r a2, addSwipe db now A B action = Except.ok (db2, r) ∧
        findUser db2 A = some a2 ∧
        a2.swipedUsers = a.swipedUsers ++ [⟨B, action, now⟩]) := by
  have haid : a.id = A := findUser_id_eq hA
  have hbid : b.id = B := findUser_id_eq hB
  have hamem : a ∈ db.users := findUser_mem hA
  have hbmem : b ∈ db.users := findUser_mem hB
  constructor
  · intro hdup
    have hs : (a.swipedUsers.find? (fun s => s.userId == B)).isSome = true := by
      rw [List.find?_isSome]
      rcases hdup with ⟨s, hs1, hs2⟩
      exact ⟨s, hs1, by simpa using hs2⟩
    simp only [addSwipe, hA, hs, if_true]
  · intro hnew
    have hdup : (a.swipedUsers.find? (fun s => s.userId == B)).isSome = false := by
      rw [List.find?_eq_none.mpr (fun s hs => by simpa using hnew s hs)]
      rfl
    cases action with
    | pass =>
      have heq : addSwipe db now A B SwipeAction.pass = Except.ok
          (updateUser db { a with swipedUsers :=
            a.swipedUsers ++ [⟨B, SwipeAction.pass, now⟩] }, ⟨false, none⟩) := by
        simp only [addSwipe, hA, hdup, Bool.false_eq_true, if_false]
      exact ⟨_, _, _, heq, findUser_updateUser_self db
        { a with swipedUsers := a.swipedUsers ++ [⟨B, SwipeAction.pass, now⟩] } A
        (show a.id = A from haid) ⟨a, hamem, haid⟩, rfl⟩
    | like =>
      have hfind1 : findUser (updateUser db { a with swipedUsers :=
          a.swipedUsers ++ [⟨B, SwipeAction.like, now⟩] }) B = some b :=
        (findUser_updateUser_ne db
          { a with swipedUsers := a.swipedUsers ++ [⟨B, SwipeAction.like, now⟩] } B
          (show a.id ≠ B by rw [haid]; exact hAB)).trans hB
      by_cases hl : likedBack b A = true
      · have heq : addSwipe db now A B SwipeAction.like = Except.ok
            (updateUser (updateUser
              { updateUser db { a with swipedUsers :=
                  a.swipedUsers ++ [⟨B, SwipeAction.like, now⟩] } with
                nextId := db.nextId + 1,
                matchDocs := db.matchDocs ++
                  [⟨db.nextId, [A, B], [], none, now, true, none, none⟩] }
              { a with swipedUsers := a.swipedUsers ++ [⟨B, SwipeAction.like, now⟩],
                       matchIds := a.matchIds ++ [db.nextId] })
              { b with matchIds := b.matchIds ++ [db.nextId] },
             ⟨true, some db.nextId⟩) := by
          simp only [addSwipe, hA, hdup, Bool.false_eq_true, if_false, hfind1, hl,
            if_true, insertMatch, matchPreSave]
          simp [updateUser]
        exact ⟨_, _, _, heq, (findUser_updateUser_ne _
            { b with matchIds := b.matchIds ++ [db.nextId] } A
            (show b.id ≠ A from fun h => hAB (h.symm.trans hbid))).trans
          (findUser_updateUser_self _
            { a with swipedUsers := a.swipedUsers ++ [⟨B, SwipeAction.like, now⟩],
                     matchIds := a.matchIds ++ [db.nextId] } A
            (show a.id = A from haid)
            (exists_id_updateUser db _ A ⟨a, hamem, haid⟩)), rfl⟩
      · have hlf : likedBack b A = false := by simpa using hl
        have heq : addSwipe db now A B SwipeAction.like = Except.ok
            (updateUser db { a with swipedUsers :=
              a.swipedUsers ++ [⟨B, SwipeAction.like, now⟩] }, ⟨false, none⟩) := by
          simp only [addSwipe, hA, hdup, Bool.false_eq_true, if_false, hfind1, hlf]
        exact ⟨_, _, _, heq, findUser_updateUser_self db
          { a with swipedUsers := a.swipedUsers ++ [⟨B, SwipeAction.like, now⟩] } A
          (show a.id = A from haid) ⟨a, hamem, haid⟩, rfl⟩

/-- Witness for C2: a duplicate like by user 2 on user 1 is rejected, and a
first-time pass by user 1 on user 2 appends exactly one history entry. -/
theorem addSwipe_duplicate_witness :
    addSwipe dbC1 9 2 1 SwipeAction.like =
      Except.error ("Already swiped on this user") ∧
    ∃ db2 r a2, addSwipe dbC1 9 1 2 SwipeAction.pass = Except.ok (db2, r) ∧
      findUser db2 1 = some a2 ∧
      a2.swipedUsers = uC1a.swipedUsers ++ [⟨2, SwipeAction.pass, 9⟩] := by
  constructor
  · exact (addSwipe_duplicate_spec dbC1 9 2 1 uC1b uC1a SwipeAction.like rfl rfl
      (by decide)).1 ⟨⟨1, SwipeAction.like, 3⟩, by decide, rfl⟩
  · exact (addSwipe_duplicate_spec dbC1 9 1 2 uC1a uC1b SwipeAction.pass rfl rfl
      (by decide)).2 (by decide)

/-! ## C3: repeated markRead -/

theorem markMessageRead_step (db : DB) (t : Int) (reader mid : Nat) (m : Message)
    (hnd : (db.messages.map Message.id).Nodup) (hm : m ∈ db.messages)
    (hid : m.id = mid) (hrec : m.recipient = reader) (hact : m.isActive = true) :
    markMessageReadHandler db t reader mid = Except.ok
      ({ db with messages := db.messages.map (fun x =>
          if x.id == mid then { m with isRead := true, readAt := some t } else x) },
       { m with isRead := true, readAt := some t }) := by
  have hfind : db.messages.find? (fun x => x.id == mid &&
      (x.recipient == reader && x.isActive)) = some m := by
    rw [find?_key_unique (fun x : Message => x.id)
      (fun x => x.recipient == reader && x.isActive) mid db.messages hnd m hm hid,
      if_pos (by simp [hrec, hact])]
  simp only [markMessageReadHandler, hfind]

/-- C3 (amended): the read-marking endpoint is not idempotent.  The first
call flips `isRead` to true and stamps `readAt = t1`; a second call on the
same message by the same recipient is accepted again and overwrites
`readAt` with the later time `t2` (`isRead` stays true); no other message
is touched and no other collection changes. -/
theorem markRead_twice_spec (db : DB) (t1 t2 : Int) (reader mid : Nat) (m : Message)
    (hnd : (db.messages.map Message.id).Nodup) (hm : m ∈ db.messages)
    (hid : m.id = mid) (hrec : m.recipient = reader) (hact : m.isActive = true)
    (hunread : m.isRead = false) :
    ∃ db1 db2,
      markMessageReadHandler db t1 reader mid =
        Except.ok (db1, { m with isRead := true, readAt := some t1 }) ∧
      markMessageReadHandler db1 t2 reader mid =
        Except.ok (db2, { m with isRead := true, readAt := some t2 }) ∧
      (∀ x ∈ db2.messages, x.id = mid →
        x = { m with isRead := true, readAt := some t2 }) ∧
      (∀ x ∈ db2.messages, x.id ≠ mid → x ∈ db.messages) ∧
      db2.users = db.users ∧ db2.matchDocs = db.matchDocs := by
  have h1 := markMessageRead_step db t1 reader mid m hnd hm hid hrec hact
  have hnd1 : (((db.messages.map (fun x =>
      if x.id == mid then { m with isRead := true, readAt := some t1 } else x)).map
        Message.id)).Nodup := by
    apply nodup_key_map _ _ _ _ hnd
    intro x
    by_cases hx : x.id = mid
    · simp [hx, hid]
    · simp [hx]
  have hm1 : ({ m with isRead := true, readAt := some t1 } : Message) ∈
      db.messages.map (fun x =>
        if x.id == mid then { m with isRead := true, readAt := some t1 } else x) := by
    have := List.mem_map_of_mem (fun x =>
      if x.id == mid then { m with isRead := true, readAt := some t1 } else x) hm
    simpa [hid] using this
  have h2 := markMessageRead_step
    { db with messages := db.messages.map (fun x =>
        if x.id == mid then { m with isRead := true, readAt := some t1 } else x) }
    t2 reader mid
    { m with isRead := true, readAt := some t1 } hnd1 hm1 hid hrec hact
  refine ⟨_, _, h1, h2, ?_, ?_, rfl, rfl⟩
  · intro x hx hxid
    simp only [List.mem_map] at hx
    rcases hx with ⟨y, hy, rfl⟩
    by_cases hy2 : y.id = mid
    · simp [hy2]
    · have hcy : ¬ ((y.id == mid) = true) := by simp [hy2]
      rw [if_neg hcy] at hxid ⊢
      exact absurd hxid hy2
  · intro x hx hxid
    simp only [List.mem_map] at hx
    rcases hx with ⟨y, hy, rfl⟩
    by_cases hy2 : y.id = mid
    · exfalso
      apply hxid
      simp [hy2, hid]
    · have hcy : ¬ ((y.id == mid) = true) := by simp [hy2]
      rw [if_neg hcy] at hxid ⊢
      rcases hy with ⟨z, hz, rfl⟩
      by_cases hz2 : z.id = mid
      · exfalso
        apply hy2
        simp [hz2, hid]
      · have hcz : ¬ ((z.id == mid) = true) := by simp [hz2]
        rw [if_neg hcz]
        exact hz

def msgC3 : Message :=
  ⟨10, 7, 1, 2, some ("a"), MessageType.text, none, none, false, none, true,
   some 0, true, none, none, 0⟩

def dbC3 : DB := ⟨[], [], [msgC3], 100⟩

/-- C3 counterexample: as the claim is stated it is false — the second
`markRead` call on the same already-read message is accepted again and
overwrites `readAt` (100 becomes 200), changing the stored state. -/
theorem markRead_second_call_counterexample :
    ∃ db1 m1 db2 m2,
      markMessageReadHandler dbC3 100 2 10 = Except.ok (db1, m1) ∧
      m1.isRead = true ∧ m1.readAt = some 100 ∧
      markMessageReadHandler db1 200 2 10 = Except.ok (db2, m2) ∧
      m2.readAt = some 200 ∧ db2 ≠ db1 := by
  exact ⟨_, _, _, _, rfl, rfl, rfl, rfl, rfl, by decide⟩

/-- Witness for the amended C3 theorem at the concrete store. -/
theorem markRead_twice_witness :
    ∃ db1 db2,
      markMessageReadHandler dbC3 100 2 10 =
        Except.ok (db1, { msgC3 with isRead := true, readAt := some 100 }) ∧
      markMessageReadHandler db1 200 2 10 =
        Except.ok (db2, { msgC3 with isRead := true, readAt := some 200 }) := by
  obtain ⟨db1, db2, h1, h2, -, -, -, -⟩ :=
    markRead_twice_spec dbC3 100 200 2 10 msgC3 (by decide) (by decide) rfl rfl rfl rfl
  exact ⟨db1, db2, h1, h2⟩

/-! ## C6: the match-size save hook -/

/-- C6 (amended): a match save (insert of a new document or save of an
existing one) succeeds exactly when the `users` list has length 2 — the
pre-save hook checks only the length, so two equal ids are accepted — and
consequently every save preserves the all-matches-have-two-users
invariant; constructing with 0, 1 or 3 or more user ids fails. -/
theorem match_save_size_spec (db : DB) (m : Match) :
    ((∃ db2, insertMatch db m = Except.ok db2) ↔ m.users.length = 2) ∧
    ((∃ db2, saveMatch db m = Except.ok db2) ↔ m.users.length = 2) ∧
    (∀ db2, insertMatch db m = Except.ok db2 →
      (∀ x ∈ db.matchDocs, x.users.length = 2) →
      ∀ x ∈ db2.matchDocs, x.users.length = 2) ∧
    (∀ db2, saveMatch db m = Except.ok db2 →
      (∀ x ∈ db.matchDocs, x.users.length = 2) →
      ∀ x ∈ db2.matchDocs, x.users.length = 2) := by
  by_cases h : m.users.length = 2
  · have hpre : matchPreSave m = Except.ok () := by
      simp [matchPreSave, h]
    refine ⟨⟨fun _ => h, fun _ => ?_⟩, ⟨fun _ => h, fun _ => ?_⟩, ?_, ?_⟩
    · exact ⟨{ db with matchDocs := db.matchDocs ++ [m] }, by simp [insertMatch, hpre]⟩
    · refine ⟨{ db with matchDocs := db.matchDocs.map (fun x => if x.id == m.id then m else x) }, ?_⟩
      simp [saveMatch, hpre]
    · intro db2 hok hall x hx
      simp only [insertMatch, hpre] at hok
      cases hok
      rcases List.mem_append.mp hx with hx1 | hx1
      · exact hall x hx1
      · rw [List.mem_singleton.mp hx1]
        exact h
    · intro db2 hok hall x hx
      simp only [saveMatch, hpre] at hok
      cases hok
      rcases List.mem_map.mp hx with ⟨y, hy, rfl⟩
      by_cases hy2 : (y.id == m.id) = true
      · rw [if_pos hy2]
        exact h
      · rw [if_neg hy2]
        exact hall y hy
  · have hpre : matchPreSave m = Except.error ("A match must have exactly 2 users") := by
      simp [matchPreSave, h]
    refine ⟨⟨?_, fun h2 => absurd h2 h⟩, ⟨?_, fun h2 => absurd h2 h⟩, ?_, ?_⟩
    · rintro ⟨db2, hok⟩
      simp [insertMatch, hpre] at hok
    · rintro ⟨db2, hok⟩
      simp [saveMatch, hpre] at hok
    · intro db2 hok
      simp [insertMatch, hpre] at hok
    · intro db2 hok
      simp [saveMatch, hpre] at hok

def mC6dup : Match := ⟨100, [7, 7], [], none, 0, true, none, none⟩

def dbC6 : DB := ⟨[], [], [], 101⟩

/-- C6 counterexample: the claim as stated is false — a match whose two
user entries are the SAME id (not two distinct ids) passes the pre-save
hook and is persisted. -/
theorem match_distinctness_counterexample :
    mC6dup.users = [7, 7] ∧
    insertMatch dbC6 mC6dup = Except.ok ⟨[], [mC6dup], [], 101⟩ := by
  exact ⟨rfl, rfl⟩

/-- Witness for the amended C6 theorem: a two-user construction succeeds and
a one-user construction is rejected. -/
theorem match_save_size_witness :
    (∃ db2, insertMatch dbC6 ⟨100, [1, 2], [], none, 0, true, none, none⟩ =
      Except.ok db2) ∧
    (∀ db2, insertMatch dbC6 ⟨100, [1], [], none, 0, true, none, none⟩ =
      Except.ok db2 → False) := by
  constructor
  · exact (match_save_size_spec dbC6 ⟨100, [1, 2], [], none, 0, true, none, none⟩).1.mpr rfl
  · intro db2 h
    have h2 := (match_save_size_spec dbC6
      ⟨100, [1], [], none, 0, true, none, none⟩).1.mp ⟨db2, h⟩
    simp at h2

/-! ## C5: the edit window -/

theorem messagePostSave_messages (db : DB) (msg : Message) (now : Int) :
    (messagePostSave db msg now).messages = db.messages := by
  unfold messagePostSave
  cases h : findMatch db msg.matchId with
  | none => rfl
  | some m =>
    unfold saveMatch matchPreSave
    by_cases h2 : (matchAddMessage m msg.id now).users.length ≠ 2
    · simp [h2]
    · simp [h2]

theorem messagePostSave_users (db : DB) (msg : Message) (now : Int) :
    (messagePostSave db msg now).users = db.users := by
  unfold messagePostSave
  cases h : findMatch db msg.matchId with
  | none => rfl
  | some m =>
    unfold saveMatch matchPreSave
    by_cases h2 : (matchAddMessage m msg.id now).users.length ≠ 2
    · simp [h2]
    · simp [h2]

theorem map_replace_by_vid (l : List Message) (v : Message) :
    (∀ x ∈ l.map (fun y => if y.id == v.id then v else y), x.id = v.id → x = v) ∧
    (∀ x ∈ l.map (fun y => if y.id == v.id then v else y), x.id ≠ v.id → x ∈ l) := by
  constructor
  · intro x hx hxid
    rcases List.mem_map.mp hx with ⟨y, hy, rfl⟩
    by_cases hy2 : (y.id == v.id) = true
    · rw [if_pos hy2]
    · rw [if_neg hy2] at hxid ⊢
      exact absurd hxid (by simpa using hy2)
  · intro x hx hxid
    rcases List.mem_map.mp hx with ⟨y, hy, rfl⟩
    by_cases hy2 : (y.id == v.id) = true
    · rw [if_pos hy2] at hxid
      exact absurd rfl hxid
    · rw [if_neg hy2]
      exact hy

/-- C5: for a stored message `m`, the edit endpoint succeeds if and only if
the editor is the original sender, the message is active, its type is text,
and its age `now - createdAt` is at most the 15-minute window (in
milliseconds); so age 14:59 succeeds, 15:01 fails, and a non-text message
always fails.  On success the stored message is mutated in place (no new
message; the collection keeps its length) with the trimmed new content and
`editedAt = now`. -/
theorem editMessage_spec (db : DB) (now : Int) (E mid : Nat) (c : String) (m : Message)
    (hnd : (db.messages.map Message.id).Nodup) (hm : m ∈ db.messages) (hid : m.id = mid)
    (hsr : m.sender ≠ m.recipient)
    (hc1 : 1 ≤ (jsTrim c).length) (hc2 : (jsTrim c).length ≤ 1000) :
    ((∃ db2 m2, editMessageHandler db now E mid c = Except.ok (db2, m2)) ↔
      (m.sender = E ∧ m.isActive = true ∧ m.messageType = MessageType.text ∧
        now - m.createdAt ≤ 15 * 60 * 1000)) ∧
    (∀ db2 m2, editMessageHandler db now E mid c = Except.ok (db2, m2) →
      m2 = { m with content := some (jsTrim c), editedAt := some now } ∧
      db2.messages.length = db.messages.length ∧
      (∀ x ∈ db2.messages, x.id = mid → x = m2) ∧
      (∀ x ∈ db2.messages, x.id ≠ mid → x ∈ db.messages)) := by
  have hvf : ((jsTrim c).length < 1 || (jsTrim c).length > 1000) = false := by
    simp only [Bool.or_eq_false_iff, decide_eq_false_iff_not, not_lt]
    omega
  have hfind := find?_key_unique (fun x : Message => x.id)
    (fun x => x.sender == E && (x.isActive && x.messageType == MessageType.text))
    mid db.messages hnd m hm hid
  by_cases hp : (m.sender == E && (m.isActive && m.messageType == MessageType.text)) = true
  · rw [if_pos hp] at hfind
    have hp2 : m.sender = E ∧ m.isActive = true ∧ m.messageType = MessageType.text := by
      simpa using hp
    by_cases hw : m.createdAt < now - 15 * 60 * 1000
    · have heq : editMessageHandler db now E mid c =
          Except.error ("Message is too old to edit") := by
        simp only [editMessageHandler, hvf, Bool.false_eq_true, if_false,
          editMessage, hfind]
        rw [if_pos hw]
      constructor
      · constructor
        · rintro ⟨db2, m2, hok⟩
          rw [heq] at hok
          cases hok
        · rintro ⟨-, -, -, h4⟩
          omega
      · intro db2 m2 hok
        rw [heq] at hok
        cases hok
    · have hne : jsTrim c ≠ ("") := by
        intro h
        rw [h] at hc1
        simp at hc1
      have hval : messageValidate
          { m with content := some (jsTrim c), editedAt := some now } =
          Except.ok () := by
        unfold messageValidate
        rw [if_neg (by simp [hne]), if_neg (by simp; omega),
          if_neg (by simp [hp2.2.2]), if_neg (by simp [hp2.2.2])]
      have hchecks : messagePreSaveChecks
          { m with content := some (jsTrim c), editedAt := some now } =
          Except.ok () := by
        unfold messagePreSaveChecks
        rw [hval]
        rw [if_neg (by simpa using hsr)]
      have heq : editMessageHandler db now E mid c = Except.ok
          (messagePostSave
            { db with messages := db.messages.map (fun x =>
                if x.id == ({ m with content := some (jsTrim c), editedAt := some now } : Message).id then { m with content := some (jsTrim c), editedAt := some now } else x) }
            { m with content := some (jsTrim c), editedAt := some now } now,
           { m with content := some (jsTrim c), editedAt := some now }) := by
        simp only [editMessageHandler, hvf, Bool.false_eq_true, if_false,
          editMessage, hfind]
        rw [if_neg hw]
        simp only [saveMessage, hchecks]
      constructor
      · exact ⟨fun _ => ⟨hp2.1, hp2.2.1, hp2.2.2, by omega⟩, fun _ => ⟨_, _, heq⟩⟩
      · intro db2 m2 hok
        rw [heq] at hok
        injection hok with hok2
        injection hok2 with hdb hm2
        subst hdb
        subst hm2
        refine ⟨rfl, ?_, ?_, ?_⟩
        · rw [messagePostSave_messages]
          exact List.length_map _ _
        · intro x hx hxid
          rw [messagePostSave_messages] at hx
          exact (map_replace_by_vid db.messages _).1 x hx (by rw [hxid, ← hid])
        · intro x hx hxid
          rw [messagePostSave_messages] at hx
          apply (map_replace_by_vid db.messages _).2 x hx
          intro h
          apply hxid
          rw [h, hid]
  · rw [if_neg hp] at hfind
    have heq : editMessageHandler db now E mid c =
        Except.error ("Message not found or unauthorized") := by
      simp only [editMessageHandler, hvf, Bool.false_eq_true, if_false,
        editMessage, hfind]
    constructor
    · constructor
      · rintro ⟨db2, m2, hok⟩
        rw [heq] at hok
        cases hok
      · rintro ⟨h1, h2, h3, -⟩
        exact absurd (by simp [h1, h2, h3]) hp
    · intro db2 m2 hok
      rw [heq] at hok
      cases hok

def msgC5 : Message :=
  ⟨10, 7, 1, 2, some ("a"), MessageType.text, none, none, false, none, true,
   some 0, true, none, none, 0⟩

def dbC5 : DB := ⟨[], [⟨7, [1, 2], [10], some 10, 0, true, none, none⟩], [msgC5], 100⟩

/-- Witness for C5: editing the text message at age 14:59 (899000 ms)
succeeds; at age 15:01 (901000 ms) the same edit is rejected. -/
theorem editMessage_witness :
    (∃ db2 m2, editMessageHandler dbC5 899000 1 10 ("yo") = Except.ok (db2, m2)) ∧
    (¬ ∃ db2 m2, editMessageHandler dbC5 901000 1 10 ("yo") = Except.ok (db2, m2)) := by
  constructor
  · exact (editMessage_spec dbC5 899000 1 10 ("yo") msgC5 (by decide) (by decide) rfl
      (by decide) (by decide) (by decide)).1.mpr ⟨rfl, rfl, rfl, by decide⟩
  · intro h
    have h2 := (editMessage_spec dbC5 901000 1 10 ("yo") msgC5 (by decide) (by decide) rfl
      (by decide) (by decide) (by decide)).1.mp h
    have h3 := h2.2.2.2
    simp only [msgC5] at h3
    omega

/-! ## C7: send/list round trip -/

/-- C7: a successful send of a text message with content "hi" into a match
persists it with the delivery flags set at save time
(isDelivered = true, deliveredAt = now), unread and active, and the ledger
listing for that match (page 1, any limit at least the match's active
message count) contains it with content "hi". -/
theorem send_roundtrip_spec (db : DB) (now : Int) (senderId matchId : Nat)
    (db2 : DB) (msg : Message) (lim : Nat)
    (h : sendMessage db now senderId matchId (some ("hi")) MessageType.text
      none none none = Except.ok (db2, msg))
    (hlim : (db2.messages.filter
      (fun x => x.matchId == matchId && x.isActive)).length ≤ lim) :
    msg.content = some ("hi") ∧ msg.isRead = false ∧ msg.isDelivered = true ∧
    msg.isActive = true ∧ msg.deliveredAt = some now ∧
    msg ∈ getMatchMessages db2 matchId 1 lim := by
  have hjs : jsTrim ("hi") = ("hi") := by decide
  have hval : (((jsTrim ("hi")).length < 1 : Bool) ||
      ((jsTrim ("hi")).length > 1000 : Bool)) = false := by decide
  rcases hfm : db.matchDocs.find? (fun m => m.id == matchId &&
      (m.users.contains senderId && m.isActive)) with - | mtch
  · simp only [sendMessage, hval, Bool.false_eq_true, if_false, hfm] at h
    cases h
  rcases hrc : mtch.users.find? (fun u => u != senderId) with - | recip
  · simp only [sendMessage, hval, Bool.false_eq_true, if_false, hfm, hrc] at h
    cases h
  have hrne : (recip != senderId) = true := by
    have h2 := List.find?_some hrc
    simpa using h2
  simp only [sendMessage, hval, Bool.false_eq_true, if_false, hfm, hrc] at h
  simp only [saveNewMessage] at h
  rw [if_neg (by simp [hjs, show ¬ ("hi" : String) = ("") from by decide]),
    if_neg (by simp), if_neg (by simp)] at h
  split at h
  · cases h
  · injection h with h2
    injection h2 with hdb hmsg
    have hmsgs : db2.messages = db.messages ++ [msg] := by
      rw [← hdb, messagePostSave_messages, ← hmsg]
    have hpred : (msg.matchId == matchId && msg.isActive) = true := by
      rw [← hmsg]
      simp
    refine ⟨?_, ?_, ?_, ?_, ?_, ?_⟩
    · rw [← hmsg]
      simp [hjs]
    · rw [← hmsg]
    · rw [← hmsg]
    · rw [← hmsg]
    · rw [← hmsg]
    · simp only [getMatchMessages, Nat.sub_self, Nat.zero_mul, List.drop_zero]
      rw [List.take_of_length_le (by rw [List.length_mergeSort]; exact hlim)]
      apply List.mem_mergeSort.mpr
      apply List.mem_filter.mpr
      refine ⟨?_, hpred⟩
      rw [hmsgs]
      exact List.mem_append_right _ (List.mem_singleton.mpr rfl)

def dbC7 : DB := ⟨[], [⟨7, [1, 2], [], none, 0, true, none, none⟩], [], 100⟩

/-- Witness for C7 at a concrete store: sending "hi" into match 7 returns a
delivered, unread, active message that the ledger listing contains. -/
theorem send_roundtrip_witness :
    ∃ db2 msg, sendMessage dbC7 50 1 7 (some ("hi")) MessageType.text
      none none none = Except.ok (db2, msg) ∧
      msg.content = some ("hi") ∧ msg.isRead = false ∧ msg.isDelivered = true ∧
      msg.isActive = true ∧ msg ∈ getMatchMessages db2 7 1 50 := by
  refine ⟨_, _, rfl, ?_⟩
  have h := send_roundtrip_spec dbC7 50 1 7 _ _ 50 rfl (by decide)
  exact ⟨h.1, h.2.1, h.2.2.1, h.2.2.2.1, h.2.2.2.2.2⟩

/-! ## C9: listing messages marks them read -/

/-- C9: fetching the message listing of a match is not read-only — on
success every active, unread message of that match addressed to the caller
has been flipped to isRead = true with readAt = now, so both
recipient-scoped and (given that every message of the match is between the
two participants) sender-scoped unread counts for that match are zero
afterwards; every other message, and the user and match collections, are
untouched. -/
theorem listMessages_marks_read_spec (db : DB) (now : Int) (callerId matchId : Nat)
    (page lim : Nat) (db2 : DB) (msgs : List Message)
    (h : getMatchMessagesHandler db now callerId matchId page lim =
      Except.ok (db2, msgs)) :
    (∀ x ∈ db2.messages, x.matchId = matchId → x.recipient = callerId →
      x.isActive = true → x.isRead = true) ∧
    (db2.messages.filter (fun x => x.matchId == matchId &&
      (x.recipient == callerId && (!x.isRead && x.isActive)))).length = 0 ∧
    ((∀ x ∈ db.messages, x.matchId = matchId → x.sender ≠ callerId →
        x.recipient = callerId) →
      matchGetUnreadCount db2 matchId callerId = 0) ∧
    (∀ x ∈ db2.messages, x ∈ db.messages ∨
      ∃ y ∈ db.messages, y.matchId = matchId ∧ y.recipient = callerId ∧
        y.isRead = false ∧ y.isActive = true ∧
        x = { y with isRead := true, readAt := some now }) ∧
    db2.users = db.users ∧ db2.matchDocs = db.matchDocs := by
  simp only [getMatchMessagesHandler] at h
  split at h
  · cases h
  · injection h with h2
    injection h2 with hdb hmsgs
    simp only [markAsRead] at hdb
    have hmess : db2.messages = db.messages.map (fun m =>
        if (m.matchId == matchId && (m.recipient == callerId &&
            (!m.isRead && m.isActive))) then
          { m with isRead := true, readAt := some now }
        else m) := by
      rw [← hdb]
    have husers : db2.users = db.users := by rw [← hdb]
    have hmatches : db2.matchDocs = db.matchDocs := by rw [← hdb]
    refine ⟨?_, ?_, ?_, ?_, husers, hmatches⟩
    · intro x hx h1 h2 h3
      rw [hmess] at hx
      rcases List.mem_map.mp hx with ⟨y, hy, rfl⟩
      by_cases hc : (y.matchId == matchId && (y.recipient == callerId &&
          (!y.isRead && y.isActive))) = true
      · rw [if_pos hc]
      · rw [if_neg hc] at h1 h2 h3 ⊢
        by_contra hread
        apply hc
        simp only [Bool.not_eq_true] at hread
        simp [h1, h2, h3, hread]
    · rw [List.length_eq_zero]
      rw [List.filter_eq_nil_iff]
      intro x hx
      rw [hmess] at hx
      rcases List.mem_map.mp hx with ⟨y, hy, rfl⟩
      by_cases hc : (y.matchId == matchId && (y.recipient == callerId &&
          (!y.isRead && y.isActive))) = true
      · rw [if_pos hc]
        simp
      · rw [if_neg hc]
        simpa using hc
    · intro hwf
      unfold matchGetUnreadCount
      rw [List.length_eq_zero, List.filter_eq_nil_iff]
      intro x hx
      rw [hmess] at hx
      rcases List.mem_map.mp hx with ⟨y, hy, rfl⟩
      by_cases hc : (y.matchId == matchId && (y.recipient == callerId &&
          (!y.isRead && y.isActive))) = true
      · rw [if_pos hc]
        simp
      · rw [if_neg hc]
        intro hpred
        simp only [Bool.and_eq_true, beq_iff_eq, bne_iff_ne, ne_eq,
          Bool.not_eq_true] at hpred
        have hrec := hwf y hy hpred.1 hpred.2.1
        apply hc
        simp [hpred.1, hrec, hpred.2.2.1, hpred.2.2.2]
    · intro x hx
      rw [hmess] at hx
      rcases List.mem_map.mp hx with ⟨y, hy, rfl⟩
      by_cases hc : (y.matchId == matchId && (y.recipient == callerId &&
          (!y.isRead && y.isActive))) = true
      · rw [if_pos hc]
        right
        refine ⟨y, hy, ?_⟩
        simp only [Bool.and_eq_true, beq_iff_eq, Bool.not_eq_true'] at hc
        exact ⟨hc.1, hc.2.1, hc.2.2.1, hc.2.2.2, rfl⟩
      · rw [if_neg hc]
        exact Or.inl hy

def msgC9 : Message :=
  ⟨10, 7, 2, 1, some ("a"), MessageType.text, none, none, false, none, true,
   some 0, true, none, none, 0⟩

def dbC9 : DB := ⟨[], [⟨7, [1, 2], [10], some 10, 0, true, none, none⟩], [msgC9], 100⟩

/-- Witness for C9: after user 1 lists the messages of match 7, the unread
message from user 2 has been marked read and both unread counts are zero. -/
theorem listMessages_marks_read_witness :
    ∃ db2 msgs,
      getMatchMessagesHandler dbC9 60 1 7 1 50 = Except.ok (db2, msgs) ∧
      matchGetUnreadCount db2 7 1 = 0 ∧
      (db2.messages.filter (fun x => x.matchId == 7 &&
        (x.recipient == 1 && (!x.isRead && x.isActive)))).length = 0 := by
  refine ⟨_, _, rfl, ?_, ?_⟩
  · exact (listMessages_marks_read_spec dbC9 60 1 7 1 50 _ _ rfl).2.2.1 (by decide)
  · exact (listMessages_marks_read_spec dbC9 60 1 7 1 50 _ _ rfl).2.1

/-! ## C10: the post-save hook re-fires on edits and soft-deletes -/

theorem messagePostSave_bumps (db : DB) (msg : Message) (now : Int) (mtch : Match)
    (hmt : db.matchDocs.find? (fun x => x.id == msg.matchId) = some mtch)
    (hlen : mtch.users.length = 2) :
    ∃ x ∈ (messagePostSave db msg now).matchDocs, x.id = msg.matchId ∧
      x.messages = mtch.messages ++ [msg.id] ∧ x.lastMessage = some msg.id ∧
      x.lastActivity = now := by
  have hmid : mtch.id = msg.matchId := by simpa using List.find?_some hmt
  have hmm : mtch ∈ db.matchDocs := List.mem_of_find?_eq_some hmt
  have hpre : matchPreSave (matchAddMessage mtch msg.id now) = Except.ok () := by
    simp [matchPreSave, matchAddMessage, hlen]
  have heq : messagePostSave db msg now =
      { db with matchDocs := db.matchDocs.map (fun x =>
          if x.id == (matchAddMessage mtch msg.id now).id then
            matchAddMessage mtch msg.id now
          else x) } := by
    simp only [messagePostSave, findMatch, hmt, saveMatch, hpre]
  rw [heq]
  refine ⟨matchAddMessage mtch msg.id now, ?_,
    by simpa [matchAddMessage] using hmid, rfl, rfl, rfl⟩
  simp only [List.mem_map]
  exact ⟨mtch, hmm, by simp [matchAddMessage]⟩

theorem saveMessage_bumps (db : DB) (now : Int) (mprime : Message) (mtch : Match)
    (db2 : DB) (m2 : Message)
    (h : saveMessage db now mprime = Except.ok (db2, m2))
    (hmt : db.matchDocs.find? (fun x => x.id == mprime.matchId) = some mtch)
    (hlen : mtch.users.length = 2) :
    m2 = mprime ∧
    ∃ x ∈ db2.matchDocs, x.id = mprime.matchId ∧
      x.messages = mtch.messages ++ [mprime.id] ∧
      x.lastMessage = some mprime.id ∧ x.lastActivity = now := by
  simp only [saveMessage] at h
  split at h
  · cases h
  · injection h with h2
    injection h2 with hdb hm2
    refine ⟨hm2.symm, ?_⟩
    rw [← hdb]
    exact messagePostSave_bumps _ _ now mtch hmt hlen

/-- C10: a message save triggered by the soft-delete or by the edit path
re-invokes `Match.addMessage`: the match referenced by the message gets the
message id appended AGAIN to its message list (a duplicate reference, since
the id was already there), its `lastMessage` pointer is set to that
message — even when the delete has just made it inactive — and its
`lastActivity` is bumped to now. -/
theorem message_resave_bumps_match_spec (db : DB) (now : Int) (mid uid : Nat)
    (c : String) (m : Message) (mtch : Match)
    (hnd : (db.messages.map Message.id).Nodup) (hm : m ∈ db.messages)
    (hid : m.id = mid)
    (hmt : db.matchDocs.find? (fun x => x.id == m.matchId) = some mtch)
    (hlen : mtch.users.length = 2) (hmem : mid ∈ mtch.messages) :
    (∀ db2 m2, deleteMessage db now mid uid = Except.ok (db2, m2) →
      m2.isActive = false ∧ m2.id = mid ∧
      ∃ x ∈ db2.matchDocs, x.id = m.matchId ∧
        x.messages = mtch.messages ++ [mid] ∧ x.lastMessage = some mid ∧
        x.lastActivity = now ∧ 1 < x.messages.count mid) ∧
    (∀ db2 m2, editMessageHandler db now uid mid c = Except.ok (db2, m2) →
      ∃ x ∈ db2.matchDocs, x.id = m.matchId ∧
        x.messages = mtch.messages ++ [mid] ∧ x.lastMessage = some mid ∧
        x.lastActivity = now ∧ 1 < x.messages.count mid) := by
  have hcount : 0 < mtch.messages.count mid := List.count_pos_iff.mpr hmem
  constructor
  · intro db2 m2 h
    simp only [deleteMessage] at h
    rw [find?_key_unique (fun x : Message => x.id)
      (fun x => x.sender == uid && x.isActive) mid db.messages hnd m hm hid] at h
    by_cases hp : (m.sender == uid && m.isActive) = true
    · rw [if_pos hp] at h
      obtain ⟨hm2, x, hx, hxid, hxmsgs, hxlast, hxact⟩ :=
        saveMessage_bumps _ now { m with isActive := false } mtch db2 m2 h hmt hlen
      refine ⟨by rw [hm2], by rw [hm2]; exact hid, x, hx, hxid, ?_, ?_, hxact, ?_⟩
      · rw [hxmsgs]
        simp [hid]
      · rw [hxlast]
        simp [hid]
      · rw [hxmsgs]
        simp only [hid, List.count_append]
        have : List.count mid [mid] = 1 := by simp
        omega
    · rw [if_neg hp] at h
      cases h
  · intro db2 m2 h
    simp only [editMessageHandler] at h
    split at h
    · cases h
    · simp only [editMessage] at h
      by_cases hp : (m.sender == uid &&
          (m.isActive && m.messageType == MessageType.text)) = true
      · have hfindE := find?_key_unique (fun x : Message => x.id)
          (fun x => x.sender == uid && (x.isActive && x.messageType == MessageType.text))
          mid db.messages hnd m hm hid
        rw [if_pos hp] at hfindE
        simp only [hfindE] at h
        by_cases hw : m.createdAt < now - 15 * 60 * 1000
        · rw [if_pos hw] at h
          cases h
        · rw [if_neg hw] at h
          obtain ⟨hm2, x, hx, hxid, hxmsgs, hxlast, hxact⟩ :=
            saveMessage_bumps _ now
              { m with content := some (jsTrim c), editedAt := some now }
              mtch db2 m2 h hmt hlen
          refine ⟨x, hx, hxid, ?_, ?_, hxact, ?_⟩
          · rw [hxmsgs]
            simp [hid]
          · rw [hxlast]
            simp [hid]
          · rw [hxmsgs]
            simp only [hid, List.count_append]
            have : List.count mid [mid] = 1 := by simp
            omega
      · have hfindE := find?_key_unique (fun x : Message => x.id)
          (fun x => x.sender == uid && (x.isActive && x.messageType == MessageType.text))
          mid db.messages hnd m hm hid
        rw [if_neg hp] at hfindE
        simp only [hfindE] at h
        cases h

def msgC10 : Message :=
  ⟨10, 3, 1, 2, some ("a"), MessageType.text, none, none, false, none, true,
   some 0, true, none, none, 0⟩

def mtchC10 : Match := ⟨3, [1, 2], [10], some 10, 0, true, none, none⟩

def dbC10 : DB := ⟨[], [mtchC10], [msgC10], 100⟩

/-- Witness for C10: soft-deleting message 10 leaves the match with the
duplicate reference list [10, 10], `lastMessage` still pointing at the now
inactive message, and `lastActivity` bumped. -/
theorem message_resave_bumps_match_witness :
    ∃ db2 m2, deleteMessage dbC10 50 10 1 = Except.ok (db2, m2) ∧
      m2.isActive = false ∧
      ∃ x ∈ db2.matchDocs, x.messages = [10, 10] ∧ x.lastMessage = some 10 ∧
        x.lastActivity = 50 ∧ 1 < x.messages.count 10 := by
  refine ⟨_, _, rfl, ?_⟩
  obtain ⟨hact, -, x, hx, -, hxmsgs, hxlast, hxact, hxcount⟩ :=
    (message_resave_bumps_match_spec dbC10 50 10 1 ("z") msgC10 mtchC10
      (by decide) (by decide) rfl rfl rfl (by decide)).1 _ _ rfl
  refine ⟨hact, x, hx, ?_, hxlast, hxact, hxcount⟩
  rw [hxmsgs]
  rfl

/-! ## C8: candidate discovery filters, ordering and cap -/

def distC8 : Int × Int → Int × Int → Nat := fun _ _ => 0

def actorC8 : User := ⟨1, 30, Gender.male, Interest.female, (0, 0), 18, 35, 50, [], [], true, 100⟩

def cand40C8 : User := ⟨2, 40, Gender.female, Interest.both, (0, 0), 18, 60, 50, [], [], true, 90⟩

def cand25C8 : User := ⟨3, 25, Gender.female, Interest.both, (0, 0), 18, 60, 50, [], [], true, 80⟩

def dbC8 : DB := ⟨[actorC8, cand40C8, cand25C8], [], [], 50⟩

/-- C8: every user returned by `getPotentialMatches` was never swiped by the
actor, is not the actor, is active, lies in the actor's preferred age range,
matches the actor's gender interest (no filter for "both"), and — when the
actor's coordinates are non-zero — lies within the actor's maximum distance
per the geospatial engine; the result is ordered most-recently-active first
and capped at `lim`.  In the concrete scenario (actor interested in female,
age range 18..35, candidates aged 40 and 25) only the 25-year-old comes
back. -/
theorem getPotentialMatches_spec (dist : Int × Int → Int × Int → Nat) (db : DB)
    (actor : User) (lim : Nat) :
    (∀ u ∈ getPotentialMatches dist db actor lim,
      (∀ s ∈ actor.swipedUsers, s.userId ≠ u.id) ∧ u.id ≠ actor.id ∧
      u.isActive = true ∧
      actor.ageRangeMin ≤ u.age ∧ u.age ≤ actor.ageRangeMax ∧
      (actor.interestedIn = Interest.male → u.gender = Gender.male) ∧
      (actor.interestedIn = Interest.female → u.gender = Gender.female) ∧
      ((actor.coordinates.1 ≠ 0 ∨ actor.coordinates.2 ≠ 0) →
        dist actor.coordinates u.coordinates ≤ actor.maxDistance * 1000)) ∧
    (getPotentialMatches dist db actor lim).Pairwise
      (fun a b => b.lastActive ≤ a.lastActive) ∧
    (getPotentialMatches dist db actor lim).length ≤ lim ∧
    getPotentialMatches distC8 dbC8 actorC8 10 = [cand25C8] := by
  refine ⟨?_, ?_, ?_, ?_⟩
  · intro u hu
    simp only [getPotentialMatches] at hu
    have hu1 := List.take_subset _ _ hu
    have hu2 := List.mem_mergeSort.mp hu1
    obtain ⟨humem, hq⟩ := List.mem_filter.mp hu2
    simp only [Bool.and_eq_true, Bool.not_eq_true', List.contains, List.elem_eq_mem,
      decide_eq_false_iff_not, decide_eq_true_eq] at hq
    obtain ⟨hswiped, hactive, ⟨hage1, hage2⟩, hgender, hdist⟩ := hq
    have hnotmem := hswiped
    simp only [List.mem_append, List.mem_map, List.mem_singleton, not_or,
      not_exists, not_and] at hnotmem
    refine ⟨fun s hs hh => hnotmem.1 s hs hh, hnotmem.2, hactive, hage1, hage2,
      ?_, ?_, ?_⟩
    · intro hint
      rw [hint] at hgender
      simpa using hgender
    · intro hint
      rw [hint] at hgender
      simpa using hgender
    · intro hloc
      rw [if_pos hloc] at hdist
      simpa using hdist
  · have htr : ∀ a b c : User,
        (decide (b.lastActive ≤ a.lastActive) : Bool) = true →
        (decide (c.lastActive ≤ b.lastActive) : Bool) = true →
        (decide (c.lastActive ≤ a.lastActive) : Bool) = true := by
      intro a b c h1 h2
      simp only [decide_eq_true_eq] at h1 h2 ⊢
      omega
    have hto : ∀ a b : User,
        ((decide (b.lastActive ≤ a.lastActive) : Bool) ||
         (decide (a.lastActive ≤ b.lastActive) : Bool)) = true := by
      intro a b
      rcases le_total b.lastActive a.lastActive with h | h <;> simp [h]
    have hs := List.sorted_mergeSort htr hto
      (db.users.filter (fun u =>
        !(((actor.swipedUsers.map (fun s => s.userId)) ++ [actor.id]).contains u.id) &&
        (u.isActive &&
          ((decide (actor.ageRangeMin ≤ u.age) && decide (u.age ≤ actor.ageRangeMax)) &&
            ((match actor.interestedIn with
              | Interest.both => true
              | Interest.male => u.gender == Gender.male
              | Interest.female => u.gender == Gender.female) &&
             (if actor.coordinates.1 ≠ 0 ∨ actor.coordinates.2 ≠ 0 then
                decide (dist actor.coordinates u.coordinates ≤ actor.maxDistance * 1000)
              else true))))))
    have hp := List.Pairwise.sublist (List.take_sublist lim _) hs
    exact hp.imp (fun h => by simpa using h)
  · simp only [getPotentialMatches]
    exact List.length_take_le _ _
  · simp [getPotentialMatches, dbC8, actorC8, cand40C8, cand25C8, distC8]

/-- Witness for C8: the concrete discovery scenario evaluated through the
theorem. -/
theorem getPotentialMatches_witness :
    getPotentialMatches distC8 dbC8 actorC8 10 = [cand25C8] ∧
    (getPotentialMatches distC8 dbC8 actorC8 10).length ≤ 10 := by
  have h := getPotentialMatches_spec distC8 dbC8 actorC8 10
  exact ⟨h.2.2.2, h.2.2.1⟩

/-! ## C4: unmatch cascade and terminality -/

/-- Every stored match carrying the id `mid` is inactive, and `mid` is below
the fresh-id counter (so no later insert can reuse it). -/
def MatchDead (mid : Nat) (db : DB) : Prop :=
  (∀ x ∈ db.matchDocs, x.id = mid → x.isActive = false) ∧ mid < db.nextId

theorem matchDead_map_replace (mid : Nat) (db : DB) (v : Match)
    (hv : v.id = mid → v.isActive = false) (h : MatchDead mid db) :
    MatchDead mid
      { db with matchDocs := db.matchDocs.map (fun x => if x.id == v.id then v else x) } := by
  refine ⟨?_, h.2⟩
  intro x hx hxid
  rcases List.mem_map.mp hx with ⟨y, hy, rfl⟩
  by_cases hc : (y.id == v.id) = true
  · rw [if_pos hc] at hxid ⊢
    exact hv hxid
  · rw [if_neg hc] at hxid ⊢
    exact h.1 y hy hxid

theorem matchDead_postSave (mid : Nat) (db : DB) (msg : Message) (now : Int)
    (h : MatchDead mid db) : MatchDead mid (messagePostSave db msg now) := by
  cases hf : findMatch db msg.matchId with
  | none =>
    have heq : messagePostSave db msg now = db := by
      simp only [messagePostSave, hf]
    rw [heq]
    exact h
  | some m =>
    cases hsv : saveMatch db (matchAddMessage m msg.id now) with
    | error e =>
      have heq : messagePostSave db msg now = db := by
        simp only [messagePostSave, hf, hsv]
      rw [heq]
      exact h
    | ok db2 =>
      have heq : messagePostSave db msg now = db2 := by
        simp only [messagePostSave, hf, hsv]
      rw [heq]
      simp only [saveMatch] at hsv
      split at hsv
      · cases hsv
      · injection hsv with hdb2
        rw [← hdb2]
        apply matchDead_map_replace mid db (matchAddMessage m msg.id now) ?_ h
        intro hvid
        have hmm : m ∈ db.matchDocs := List.mem_of_find?_eq_some hf
        have h3 : m.isActive = false := h.1 m hmm (by simpa [matchAddMessage] using hvid)
        simpa [matchAddMessage] using h3

theorem matchDead_applyOp (mid : Nat) (db : DB) (op : Op)
    (h : MatchDead mid db) : MatchDead mid (applyOp db op) := by
  cases op with
  | swipe now2 a t act =>
    simp only [applyOp]
    cases hr : addSwipe db now2 a t act with
    | error e => exact h
    | ok p =>
      obtain ⟨db1, r⟩ := p
      simp only [addSwipe] at hr
      split at hr
      · cases hr
      · split at hr
        · cases hr
        · split at hr
          · injection hr with hr1
            injection hr1 with hdb1 hrr
            rw [← hdb1]
            exact ⟨h.1, h.2⟩
          · split at hr
            · cases hr
            · split at hr
              · split at hr
                · cases hr
                · rename_i heqI
                  injection hr with hr1
                  injection hr1 with hdb1 hrr
                  rw [← hdb1]
                  simp only [insertMatch] at heqI
                  split at heqI
                  · cases heqI
                  · injection heqI with hdbI
                    rw [← hdbI]
                    constructor
                    · intro x hx hxid
                      rcases List.mem_append.mp hx with hx1 | hx1
                      · exact h.1 x hx1 hxid
                      · exfalso
                        rw [List.mem_singleton.mp hx1] at hxid
                        have hxid2 : db.nextId = mid := hxid
                        have h2 := h.2
                        omega
                    · have h2 := h.2
                      show mid < db.nextId + 1
                      omega
              · injection hr with hr1
                injection hr1 with hdb1 hrr
                rw [← hdb1]
                exact ⟨h.1, h.2⟩
  | send now2 s mId c ty iu gu rt =>
    simp only [applyOp]
    cases hr : sendMessage db now2 s mId c ty iu gu rt with
    | error e => exact h
    | ok p =>
      obtain ⟨db1, msg⟩ := p
      simp only [sendMessage] at hr
      split at hr
      · cases hr
      · split at hr
        · cases hr
        · split at hr
          · cases hr
          · split at hr
            · cases hr
            · split at hr
              · cases hr
              · split at hr
                · cases hr
                · split at hr
                  · cases hr
                  · simp only [saveNewMessage] at hr
                    split at hr
                    · cases hr
                    · injection hr with hr1
                      injection hr1 with hdb1 hmsg
                      rw [← hdb1]
                      apply matchDead_postSave
                      refine ⟨h.1, ?_⟩
                      have h2 := h.2
                      show mid < db.nextId + 1
                      omega
  | readOne now2 r mId =>
    simp only [applyOp]
    cases hr : markMessageReadHandler db now2 r mId with
    | error e => exact h
    | ok p =>
      obtain ⟨db1, m1⟩ := p
      simp only [markMessageReadHandler] at hr
      split at hr
      · cases hr
      · injection hr with hr1
        injection hr1 with hdb1 hm1
        rw [← hdb1]
        exact ⟨h.1, h.2⟩
  | readAll now2 c2 mId =>
    simp only [applyOp]
    cases hr : markAllReadHandler db now2 c2 mId with
    | error e => exact h
    | ok p =>
      obtain ⟨db1, n⟩ := p
      simp only [markAllReadHandler, markAsRead] at hr
      split at hr
      · cases hr
      · injection hr with hr1
        injection hr1 with hdb1 hn
        rw [← hdb1]
        exact ⟨h.1, h.2⟩
  | listMessages now2 c2 mId p l =>
    simp only [applyOp]
    cases hr : getMatchMessagesHandler db now2 c2 mId p l with
    | error e => exact h
    | ok pr =>
      obtain ⟨db1, msgs⟩ := pr
      simp only [getMatchMessagesHandler, markAsRead] at hr
      split at hr
      · cases hr
      · injection hr with hr1
        injection hr1 with hdb1 hmsgs
        rw [← hdb1]
        exact ⟨h.1, h.2⟩
  | delMessage now2 mId u =>
    simp only [applyOp]
    cases hr : deleteMessage db now2 mId u with
    | error e => exact h
    | ok p =>
      obtain ⟨db1, m1⟩ := p
      simp only [deleteMessage] at hr
      split at hr
      · cases hr
      · simp only [saveMessage] at hr
        split at hr
        · cases hr
        · injection hr with hr1
          injection hr1 with hdb1 hm1
          rw [← hdb1]
          apply matchDead_postSave
          exact ⟨h.1, h.2⟩
  | editMsg now2 e2 mId c =>
    simp only [applyOp]
    cases hr : editMessageHandler db now2 e2 mId c with
    | error e => exact h
    | ok p =>
      obtain ⟨db1, m1⟩ := p
      simp only [editMessageHandler] at hr
      split at hr
      · cases hr
      · simp only [editMessage] at hr
        split at hr
        · cases hr
        · split at hr
          · cases hr
          · simp only [saveMessage] at hr
            split at hr
            · cases hr
            · injection hr with hr1
              injection hr1 with hdb1 hm1
              rw [← hdb1]
              apply matchDead_postSave
              exact ⟨h.1, h.2⟩
  | unmatchOp now2 c2 mId =>
    simp only [applyOp]
    cases hr : unmatchHandler db now2 c2 mId with
    | error e => exact h
    | ok db1 =>
      simp only [unmatchHandler] at hr
      split at hr
      · cases hr
      · rename_i mfound hfound
        simp only [matchUnmatch] at hr
        split at hr
        · cases hr
        · rename_i dbX heqS
          injection hr with hdb1
          rw [← hdb1]
          have hmdX : MatchDead mid dbX := by
            simp only [saveMatch] at heqS
            split at heqS
            · cases heqS
            · injection heqS with hdbX
              rw [← hdbX]
              exact matchDead_map_replace mid db
                { mfound with isActive := false, unmatchedBy := some c2, unmatchedAt := some now2 }
                (fun _ => rfl) h
          exact ⟨hmdX.1, hmdX.2⟩

theorem matchDead_applyOps (mid : Nat) (db : DB) (ops : List Op)
    (h : MatchDead mid db) : MatchDead mid (applyOps db ops) := by
  induction ops generalizing db with
  | nil => exact h
  | cons op rest ih => exact ih _ (matchDead_applyOp mid db op h)

/-- C4: when an active match is unmatched by one of its participants, the
stored match is flipped inactive with `unmatchedBy`/`unmatchedAt` recorded,
the match id is pulled from the match list of every member user, every
message of the match is marked inactive, a subsequent ledger listing for
the match returns no messages, and the transition is terminal: after any
further sequence of API operations every stored match with that id is
still inactive. -/
theorem unmatch_spec (db : DB) (now : Int) (P matchId : Nat) (m : Match)
    (hm : db.matchDocs.find? (fun x => x.id == matchId &&
      (x.users.contains P && x.isActive)) = some m)
    (hlen : m.users.length = 2)
    (hfresh : matchId < db.nextId) :
    ∃ db3, unmatchHandler db now P matchId = Except.ok db3 ∧
      (∃ x ∈ db3.matchDocs, x.id = matchId ∧
        x = { m with isActive := false, unmatchedBy := some P,
                     unmatchedAt := some now }) ∧
      (∀ x ∈ db3.matchDocs, x.id = matchId → x.isActive = false) ∧
      (∀ u ∈ db3.users, u.id ∈ m.users → matchId ∉ u.matchIds) ∧
      (∀ msg ∈ db3.messages, msg.matchId = matchId → msg.isActive = false) ∧
      (∀ page lim, getMatchMessages db3 matchId page lim = []) ∧
      (∀ ops : List Op, ∀ x ∈ (applyOps db3 ops).matchDocs, x.id = matchId →
        x.isActive = false) := by
  have hmid : m.id = matchId := by
    have h2 := List.find?_some hm
    simp only [Bool.and_eq_true, beq_iff_eq] at h2
    exact h2.1
  have hmm : m ∈ db.matchDocs := List.mem_of_find?_eq_some hm
  have hpre : matchPreSave
      { m with isActive := false, unmatchedBy := some P, unmatchedAt := some now } =
      Except.ok () := by
    simp [matchPreSave, hlen]
  have heq : unmatchHandler db now P matchId = Except.ok
      { users := db.users.map (fun u =>
          if ({ m with isActive := false, unmatchedBy := some P, unmatchedAt := some now } : Match).users.contains u.id then
            { u with matchIds := u.matchIds.filter (fun x =>
              x != ({ m with isActive := false, unmatchedBy := some P, unmatchedAt := some now } : Match).id) }
          else u),
        matchDocs := db.matchDocs.map (fun x =>
          if x.id == ({ m with isActive := false, unmatchedBy := some P, unmatchedAt := some now } : Match).id then
            { m with isActive := false, unmatchedBy := some P, unmatchedAt := some now }
          else x),
        messages := db.messages.map (fun msg =>
          if msg.matchId == ({ m with isActive := false, unmatchedBy := some P, unmatchedAt := some now } : Match).id then
            { msg with isActive := false }
          else msg),
        nextId := db.nextId } := by
    simp only [unmatchHandler, hm, matchUnmatch, saveMatch, hpre]
  refine ⟨_, heq, ?_, ?_, ?_, ?_, ?_, ?_⟩
  · refine ⟨{ m with isActive := false, unmatchedBy := some P, unmatchedAt := some now },
      ?_, hmid, rfl⟩
    simp only [List.mem_map]
    exact ⟨m, hmm, by simp⟩
  · intro x hx hxid
    rcases List.mem_map.mp hx with ⟨y, hy, rfl⟩
    by_cases hc : (y.id == m.id) = true
    · rw [if_pos hc]
    · rw [if_neg hc] at hxid ⊢
      exfalso
      apply (by simpa using hc : ¬ y.id = m.id)
      rw [hxid, hmid]
  · intro u hu huid
    rcases List.mem_map.mp hu with ⟨y, hy, rfl⟩
    by_cases hc : (m.users.contains y.id) = true
    · rw [if_pos hc]
      intro hmem
      simp only [List.mem_filter] at hmem
      have h2 := hmem.2
      simp only [bne_iff_ne, ne_eq] at h2
      exact h2 hmid.symm
    · rw [if_neg hc] at huid ⊢
      exfalso
      apply (by simpa using hc : ¬ (m.users.contains y.id) = true)
      rw [List.contains_iff_exists_mem_beq]
      exact ⟨y.id, huid, by simp⟩
  · intro msg hmsg hmsgid
    rcases List.mem_map.mp hmsg with ⟨y, hy, rfl⟩
    by_cases hc : (y.matchId == m.id) = true
    · rw [if_pos hc]
    · rw [if_neg hc] at hmsgid ⊢
      exfalso
      apply (by simpa using hc : ¬ y.matchId = m.id)
      rw [hmsgid, hmid]
  · intro page lim
    unfold getMatchMessages
    have hfil : (List.filter (fun x => x.matchId == matchId && x.isActive)
        (db.messages.map (fun msg =>
          if msg.matchId == ({ m with isActive := false, unmatchedBy := some P, unmatchedAt := some now } : Match).id then
            { msg with isActive := false }
          else msg))) = [] := by
      rw [List.filter_eq_nil_iff]
      intro x hx
      rcases List.mem_map.mp hx with ⟨y, hy, rfl⟩
      by_cases hc : (y.matchId == m.id) = true
      · rw [if_pos hc]
        simp
      · rw [if_neg hc]
        simp only [Bool.and_eq_true, beq_iff_eq, not_and]
        intro hyid
        exfalso
        apply (by simpa using hc : ¬ y.matchId = m.id)
        rw [hyid, hmid]
    rw [hfil]
    simp
  · intro ops
    refine (matchDead_applyOps matchId _ ops ⟨?_, ?_⟩).1
    · intro x hx hxid
      rcases List.mem_map.mp hx with ⟨y, hy, rfl⟩
      by_cases hc : (y.id == m.id) = true
      · rw [if_pos hc]
      · rw [if_neg hc] at hxid ⊢
        exfalso
        apply (by simpa using hc : ¬ y.id = m.id)
        rw [hxid, hmid]
    · exact hfresh

def mtchC4 : Match := ⟨3, [1, 2], [10], some 10, 0, true, none, none⟩

def uC4a : User := ⟨1, 30, Gender.male, Interest.female, (0, 0), 18, 35, 50, [], [3], true, 0⟩

def uC4b : User := ⟨2, 25, Gender.female, Interest.both, (0, 0), 18, 50, 50, [], [3], true, 0⟩

def msgC4 : Message :=
  ⟨10, 3, 1, 2, some ("a"), MessageType.text, none, none, false, none, true,
   some 0, true, none, none, 0⟩

def dbC4 : DB := ⟨[uC4a, uC4b], [mtchC4], [msgC4], 100⟩

/-- Witness for C4: user 1 unmatches match 3; the match is deactivated, the
reference 3 is pulled from both users, and the ledger listing is empty. -/
theorem unmatch_witness :
    ∃ db3, unmatchHandler dbC4 70 1 3 = Except.ok db3 ∧
      (∀ x ∈ db3.matchDocs, x.id = 3 → x.isActive = false) ∧
      (∀ u ∈ db3.users, u.id ∈ mtchC4.users → 3 ∉ u.matchIds) ∧
      getMatchMessages db3 3 1 50 = [] := by
  obtain ⟨db3, hok, -, hinact, husers, -, hledger, -⟩ :=
    unmatch_spec dbC4 70 1 3 mtchC4 rfl rfl (by decide)
  exact ⟨db3, hok, hinact, husers, hledger 1 50⟩
